import Mathlib

/-!
Verification of the AgentOracle monitoring pipeline against its
natural-language specification.

The Lean definitions below are shallow embeddings of the TypeScript
source: the decision/action segment of `checkAndDecide` and the
suspicious-count debouncer (`offchain/monitor.ts`, `db/mongo.ts`),
agent discovery (`getMonitoredAgents`, `helpers.ts`), the probe client
(`pingEndpoint`), trend analytics (`getResponseTrends`), the LLM cache
and retry layer (`llm/decisions.ts`), the cascade delete
(`deleteAgentData`) and the faucet one-shot flags.  External effects
(HTTP, chain RPC, the LLM, MongoDB) are modelled as explicit oracles
and explicit state so that every function is pure and executable.
Numbers are idealised as `Nat`/`Rat` (the JS sources use doubles on
integral data; the 0.8/1.2 trend factors are taken at their decimal
value).
-/

namespace AgentOracle

/-! ## Verdicts and the per-cycle decision/action step

Embeds the verdict branch of `checkAndDecide` (monitor loop, lines
137-188): one `logHealthEvent` row is always written, then the chain
transactions and the suspicious counter are driven by the LLM verdict.
-/

/-- The three LLM verdicts (`decision` field of a health decision). -/
inductive Verdict
  | healthy
  | suspicious
  | critical
deriving DecidableEq, Repr

/-- On-chain transactions the step can submit. -/
inductive ChainTx
  | updateHealth (responseTimeMs : ℕ) (success : Bool)
  | reportSuspicious
deriving DecidableEq, Repr

/-- Observable events of one decision step: the appended health-event
row and each submitted chain transaction, in program order. -/
inductive Event
  | healthEventRow
  | chainTx (tx : ChainTx)
deriving DecidableEq, Repr

/-- `incrementSuspiciousCount` (db/mongo.ts lines 356-380): atomically
increment `consecutiveSuspicious`; if the new value reaches the
threshold, reset it to 0 and report that a slash is due.  Returns
(shouldSlash, new counter value). -/
def incrementSuspiciousCount (threshold : ℕ) (consecutiveSuspicious : ℕ) : Bool × ℕ :=
  let count := consecutiveSuspicious + 1
  if threshold ≤ count then (true, 0) else (false, count)

/-- The slash threshold hard-coded at the `incrementSuspiciousCount`
call site in `checkAndDecide`. -/
def slashThreshold : ℕ := 6

/-- The decision/action segment of `checkAndDecide` for one produced
verdict: the event list it emits (health-event row, then chain
transactions in program order) and the new suspicious counter.
`pingSuccess`/`responseTimeMs` come from the probe result. -/
def decisionStep (v : Verdict) (pingSuccess : Bool) (responseTimeMs : ℕ)
    (counter : ℕ) : List Event × ℕ :=
  match v with
  | .healthy =>
      ([.healthEventRow, .chainTx (.updateHealth responseTimeMs true)], 0)
  | .suspicious =>
      let r := incrementSuspiciousCount slashThreshold counter
      if r.1 then
        ([.healthEventRow, .chainTx (.updateHealth responseTimeMs pingSuccess),
          .chainTx .reportSuspicious], r.2)
      else
        ([.healthEventRow, .chainTx (.updateHealth responseTimeMs pingSuccess)], r.2)
  | .critical =>
      ([.healthEventRow, .chainTx (.updateHealth 0 false)], counter)

/-- Count of health-event rows in an event list. -/
def countHealthRows (es : List Event) : ℕ :=
  (es.filter fun e => match e with | .healthEventRow => true | _ => false).length

/-- Count of chain transactions in an event list. -/
def countChainTxs (es : List Event) : ℕ :=
  (es.filter fun e => match e with | .chainTx _ => true | _ => false).length

/-- Count of `updateHealth` transactions in an event list. -/
def countUpdateHealth (es : List Event) : ℕ :=
  (es.filter fun e => match e with | .chainTx (.updateHealth _ _) => true | _ => false).length

/-- Count of `reportSuspicious` transactions in an event list. -/
def countReportSuspicious (es : List Event) : ℕ :=
  (es.filter fun e => match e with | .chainTx .reportSuspicious => true | _ => false).length

/-! ## Verdict sequences and the debouncer (C2) -/

/-- Counter transition and slash flag for one verdict, as performed by
`checkAndDecide`: `healthy` calls `resetSuspiciousCount`, `suspicious`
calls `incrementSuspiciousCount` with threshold 6, `critical` leaves
the counter untouched. -/
def slashFlag (v : Verdict) (c : ℕ) : Bool × ℕ :=
  match v with
  | .healthy => (false, 0)
  | .suspicious => incrementSuspiciousCount slashThreshold c
  | .critical => (false, c)

/-- Process a verdict sequence from counter `c`; result is the list of
per-step slash flags (whether `reportSuspicious` was submitted). -/
def runVerdicts : List Verdict → ℕ → List Bool
  | [], _ => []
  | v :: vs, c => (slashFlag v c).1 :: runVerdicts vs (slashFlag v c).2

/-- Suspicious counter value after processing a verdict sequence. -/
def counterAfter (vs : List Verdict) (c : ℕ) : ℕ :=
  vs.foldl (fun acc v => (slashFlag v acc).2) c

/-- Accumulator of suspicious verdicts since the last healthy verdict:
healthy resets, suspicious increments, critical is inert. -/
def suspStep (acc : ℕ) (v : Verdict) : ℕ :=
  match v with
  | .healthy => 0
  | .suspicious => acc + 1
  | .critical => acc

/-- Number of suspicious verdicts observed since the most recent
healthy verdict (seeded with `s` before the sequence). -/
def suspSince (s : ℕ) (vs : List Verdict) : ℕ := vs.foldl suspStep s

/-- Modelled from the claim's words: the length of the maximal run of
consecutive non-healthy verdicts (suspicious or critical) ending at
the last element of the list. -/
def nonHealthyRunLen (vs : List Verdict) : ℕ :=
  vs.foldl (fun acc v => if v = Verdict.healthy then 0 else acc + 1) 0

theorem slashFlag_snd_mod (v : Verdict) (s : ℕ) :
    (slashFlag v (s % 6)).2 = suspStep s v % 6 := by
  cases v with
  | healthy => simp [slashFlag, suspStep]
  | suspicious =>
      simp only [slashFlag, incrementSuspiciousCount, suspStep, slashThreshold]
      split_ifs <;> simp <;> omega
  | critical => simp [slashFlag, suspStep]

theorem slashFlag_fst_iff (v : Verdict) (s : ℕ) :
    (slashFlag v (s % 6)).1 = true ↔ v = Verdict.suspicious ∧ 6 ∣ suspStep s v := by
  cases v with
  | healthy => simp [slashFlag, suspStep]
  | suspicious =>
      simp only [slashFlag, incrementSuspiciousCount, suspStep, slashThreshold]
      split_ifs with h <;> simp <;> omega
  | critical => simp [slashFlag, suspStep]

theorem counterAfter_mod (vs : List Verdict) (s : ℕ) :
    counterAfter vs (s % 6) = suspSince s vs % 6 := by
  induction vs generalizing s with
  | nil => simp [counterAfter, suspSince]
  | cons v vs ih =>
      show counterAfter vs ((slashFlag v (s % 6)).2) = suspSince (suspStep s v) vs % 6
      rw [slashFlag_snd_mod]
      exact ih (suspStep s v)

theorem runVerdicts_getD (vs : List Verdict) (s i : ℕ) (hi : i < vs.length) :
    ((runVerdicts vs (s % 6)).getD i false = true ↔
      vs.getD i Verdict.healthy = Verdict.suspicious ∧ 6 ∣ suspSince s (vs.take (i + 1))) := by
  induction vs generalizing s i with
  | nil => simp at hi
  | cons v vs ih =>
      cases i with
      | zero =>
          show ((slashFlag v (s % 6)).1 = true ↔ _)
          rw [slashFlag_fst_iff]
          simp [suspSince]
      | succ i =>
          have hi' : i < vs.length := by simpa using hi
          show ((runVerdicts vs ((slashFlag v (s % 6)).2)).getD i false = true ↔ _)
          rw [slashFlag_snd_mod]
          have := ih (suspStep s v) i hi'
          simpa [suspSince] using this

theorem suspSince_take_last (vs : List Verdict) (i s : ℕ) (hi : i < vs.length) :
    suspSince s (vs.take (i + 1)) =
      suspStep (suspSince s (vs.take i)) (vs.getD i Verdict.healthy) := by
  induction vs generalizing i s with
  | nil => simp at hi
  | cons v vs ih =>
      cases i with
      | zero => simp [suspSince]
      | succ i =>
          have hi' : i < vs.length := by simpa using hi
          simpa [suspSince] using ih i (suspStep s v) hi'

/-- C1 counterexample: in the cycle where a suspicious verdict makes the
debounce counter reach the threshold of 6 (counter 5 before the step),
the step submits two chain transactions (`updateHealth` and
`reportSuspicious`), refuting "at most one on-chain transaction is
submitted". -/
theorem slashCycle_two_chain_txs :
    ¬ (countChainTxs (decisionStep Verdict.suspicious false 500 5).1 ≤ 1) := by
  decide

/-- C1 (amended): for every verdict and counter state, one decision step
appends exactly one health-event row, submits exactly one
`updateHealth` transaction and at most one `reportSuspicious`
transaction — the latter exactly when the verdict is suspicious and the
incremented counter reaches the threshold of 6 — hence at most two
chain transactions in total. -/
theorem decisionStep_event_counts (v : Verdict) (ps : Bool) (ms c : ℕ) :
    countHealthRows (decisionStep v ps ms c).1 = 1 ∧
    countUpdateHealth (decisionStep v ps ms c).1 = 1 ∧
    countReportSuspicious (decisionStep v ps ms c).1 ≤ 1 ∧
    (countReportSuspicious (decisionStep v ps ms c).1 = 1 ↔
      v = Verdict.suspicious ∧ slashThreshold ≤ c + 1) ∧
    countChainTxs (decisionStep v ps ms c).1 ≤ 2 := by
  cases v with
  | healthy =>
      simp [decisionStep, countHealthRows, countUpdateHealth,
        countReportSuspicious, countChainTxs]
  | suspicious =>
      simp only [decisionStep, incrementSuspiciousCount, slashThreshold]
      split_ifs <;>
        simp_all [countHealthRows, countUpdateHealth, countReportSuspicious,
          countChainTxs]
  | critical =>
      simp [decisionStep, countHealthRows, countUpdateHealth,
        countReportSuspicious, countChainTxs]

/-- C2 counterexample: six consecutive critical verdicts form a maximal
run of non-healthy verdicts that reaches length 6 at step 6, yet the
code emits no `reportSuspicious` there (critical verdicts never touch
the suspicious counter), refuting the claimed "iff". -/
theorem nonHealthy_run_without_slash :
    nonHealthyRunLen (List.replicate 6 Verdict.critical) = 6 ∧
    (runVerdicts (List.replicate 6 Verdict.critical) 0).getD 5 false = false := by
  decide

/-- C2 (amended): starting from counter 0, a `reportSuspicious` is
emitted at step i iff the verdict at step i is suspicious and the
number of suspicious verdicts since the most recent healthy verdict
(critical verdicts neither extend nor break the run) reaches a positive
multiple of 6 at step i; moreover after a healthy verdict, and after a
step that slashed, the counter stored for the next step is 0. -/
theorem runVerdicts_slash_iff (vs : List Verdict) (i : ℕ) (hi : i < vs.length) :
    ((runVerdicts vs 0).getD i false = true ↔
      vs.getD i Verdict.healthy = Verdict.suspicious ∧
        6 ∣ suspSince 0 (vs.take (i + 1))) ∧
    (vs.getD i Verdict.healthy = Verdict.healthy →
      counterAfter (vs.take (i + 1)) 0 = 0) ∧
    ((runVerdicts vs 0).getD i false = true →
      counterAfter (vs.take (i + 1)) 0 = 0) := by
  have main := runVerdicts_getD vs 0 i hi
  rw [Nat.zero_mod] at main
  have hcnt : counterAfter (vs.take (i + 1)) 0 = suspSince 0 (vs.take (i + 1)) % 6 := by
    have := counterAfter_mod (vs.take (i + 1)) 0
    rwa [Nat.zero_mod] at this
  refine ⟨main, ?_, ?_⟩
  · intro hh
    have := suspSince_take_last vs i 0 hi
    rw [hh] at this
    simp only [suspStep] at this
    rw [hcnt, this]
  · intro hs
    have hdvd := (main.mp hs).2
    rw [hcnt]
    omega

/-- Witness for the C2 theorem at six consecutive suspicious verdicts:
the sixth step slashes and the counter is reset to 0. -/
theorem runVerdicts_slash_iff_witness :
    (runVerdicts (List.replicate 6 Verdict.suspicious) 0).getD 5 false = true ∧
    counterAfter ((List.replicate 6 Verdict.suspicious).take 6) 0 = 0 := by
  have h := runVerdicts_slash_iff (List.replicate 6 Verdict.suspicious) 5 (by decide)
  have hflag : (runVerdicts (List.replicate 6 Verdict.suspicious) 0).getD 5 false = true :=
    h.1.mpr (by decide)
  exact ⟨hflag, h.2.2 hflag⟩

/-! ## Agent discovery (C3, C8)

Embeds `getMonitoredAgents` (monitor loop, lines 21-36) and
`getMonitoredAgentsFromContract` (helpers.ts, lines 126-145).  The
subgraph call is an oracle that either yields the parsed agent list or
raises (network failure or a response without
`data.data.monitoredAgents`, which the code turns into a thrown
error); per-id chain reads are an oracle returning `none` when the
read throws.
-/

/-- Return shape of `HealthMonitor.getHealthData`. -/
structure HealthData where
  healthScore : ℕ
  lastCheckTimestamp : ℕ
  totalChecks : ℕ
  successfulChecks : ℕ
  failedChecks : ℕ
  totalResponseTime : ℕ
  consecutiveFailures : ℕ
  isMonitored : Bool
  stakedAmount : ℕ
  endpoint : String
deriving DecidableEq, Repr

/-- A discovered agent: id plus declared endpoint. -/
structure MonitoredAgent where
  agentId : ℕ
  endpoint : String
deriving DecidableEq, Repr

/-- `getMonitoredAgentsFromContract`: scan ids 0..19; keep an id when
the `getHealthData` read succeeds, `isMonitored` is set and the
endpoint string is truthy (nonempty); reads that throw are swallowed
per id. -/
def getMonitoredAgentsFromContract (read : ℕ → Option HealthData) : List MonitoredAgent :=
  (List.range 20).filterMap fun id =>
    match read id with
    | some h => if h.isMonitored ∧ h.endpoint ≠ "" then some ⟨id, h.endpoint⟩ else none
    | none => none

/-- `getMonitoredAgents`: try the subgraph; on a thrown error, or on a
successful but empty result, fall back to the contract scan. -/
def getMonitoredAgents (subgraph : Except String (List MonitoredAgent))
    (read : ℕ → Option HealthData) : List MonitoredAgent :=
  match subgraph with
  | .ok agents =>
      if agents.length > 0 then agents else getMonitoredAgentsFromContract read
  | .error _ => getMonitoredAgentsFromContract read

/-- Modelled from the amended spec wording for C3: discovery returns a
nonempty successful indexer result as-is, and uses the on-chain
fallback scan exactly when the indexer raises, returns a malformed
response, or succeeds with an empty agent set. -/
def discoverySpec (subgraph : Except String (List MonitoredAgent))
    (read : ℕ → Option HealthData) : List MonitoredAgent :=
  match subgraph with
  | .ok (a :: rest) => a :: rest
  | .ok [] => getMonitoredAgentsFromContract read
  | .error _ => getMonitoredAgentsFromContract read

/-- A chain state with agent 0 monitored at endpoint "e". -/
def readDemo : ℕ → Option HealthData := fun id =>
  if id = 0 then some ⟨100, 0, 0, 0, 0, 0, 0, true, 0, "e"⟩ else none

/-- C3 counterexample: a successful indexer response with an empty
agent set IS discarded in favour of the contract scan — discovery
returns the contract-scan result (agent 0) instead of the indexer's
empty list. -/
theorem empty_subgraph_falls_back :
    getMonitoredAgents (Except.ok []) readDemo = getMonitoredAgentsFromContract readDemo ∧
    getMonitoredAgents (Except.ok []) readDemo ≠ [] := by
  decide

/-- C3 (amended): discovery equals the amended specification — the
indexer result is used exactly when the indexer call succeeds with a
nonempty agent list, and the on-chain fallback scan is used when the
indexer raises, returns a malformed response, or returns an empty
list. -/
theorem getMonitoredAgents_eq_discoverySpec
    (subgraph : Except String (List MonitoredAgent))
    (read : ℕ → Option HealthData) :
    getMonitoredAgents subgraph read = discoverySpec subgraph read := by
  cases subgraph with
  | ok agents => cases agents <;> simp [getMonitoredAgents, discoverySpec]
  | error e => rfl

/-- A chain state with agent 0 monitored but with an empty endpoint. -/
def readNoEndpoint : ℕ → Option HealthData := fun id =>
  if id = 0 then some ⟨100, 0, 0, 0, 0, 0, 0, true, 0, ""⟩ else none

/-- C8 counterexample: agent 0 is in range 0..19 and its on-chain data
reports `isMonitored = true`, yet the fallback scan excludes it because
its endpoint string is empty — refuting "an agent in that range with
isMonitored true is always included". -/
theorem monitored_agent_empty_endpoint_excluded :
    readNoEndpoint 0 = some ⟨100, 0, 0, 0, 0, 0, 0, true, 0, ""⟩ ∧
    (⟨100, 0, 0, 0, 0, 0, 0, true, 0, ""⟩ : HealthData).isMonitored = true ∧
    getMonitoredAgentsFromContract readNoEndpoint = [] := by
  decide

/-- C8 (amended): the fallback scan returns exactly the agents whose id
is below 20 and whose `getHealthData` read succeeds with
`isMonitored = true` and a nonempty endpoint; in particular no id ≥ 20
is ever returned. -/
theorem fromContract_mem_iff (read : ℕ → Option HealthData) (a : MonitoredAgent) :
    a ∈ getMonitoredAgentsFromContract read ↔
      a.agentId < 20 ∧ ∃ h, read a.agentId = some h ∧
        h.isMonitored = true ∧ h.endpoint ≠ "" ∧ a.endpoint = h.endpoint := by
  simp only [getMonitoredAgentsFromContract, List.mem_filterMap, List.mem_range]
  constructor
  · rintro ⟨id, hid, hf⟩
    cases hread : read id with
    | none => simp [hread] at hf
    | some h =>
        rw [hread] at hf
        dsimp only at hf
        split_ifs at hf with hc
        obtain ⟨hmon, hep⟩ := hc
        obtain rfl : MonitoredAgent.mk id h.endpoint = a := Option.some.inj hf
        exact ⟨hid, h, hread, by simpa using hmon, hep, rfl⟩
  · rintro ⟨hlt, h, hread, hmon, hep, haep⟩
    refine ⟨a.agentId, hlt, ?_⟩
    rw [hread]
    dsimp only
    rw [if_pos ⟨by simp [hmon], hep⟩]
    cases a with
    | mk aid aep =>
        simp only at haep
        simp [haep]

/-! ## Probe client (C7)

Embeds `pingEndpoint` (helpers.ts, lines 39-47).  The transport is an
oracle: either an HTTP response (status, body, elapsed wall time) or a
transport error / timeout (elapsed wall time).  Axios with its default
`validateStatus` resolves only 2xx responses and rejects any other
status, so the embedded `axiosGet` turns a non-2xx response into a
thrown error carrying the elapsed time, exactly as the `catch` branch
observes it.  Totality of the Lean function models "never throws".
-/

/-- Outcome of the underlying HTTP GET attempt. -/
inductive RawOutcome
  | response (status : ℕ) (body : String) (elapsedMs : ℕ)
  | transportErr (elapsedMs : ℕ)
deriving DecidableEq, Repr

/-- Elapsed wall time of the attempt (`Date.now() - start`). -/
def RawOutcome.elapsed : RawOutcome → ℕ
  | .response _ _ e => e
  | .transportErr e => e

/-- Whether the attempt produced a response with a 2xx status. -/
def RawOutcome.is2xx : RawOutcome → Bool
  | .response s _ _ => decide (200 ≤ s ∧ s < 300)
  | .transportErr _ => false

/-- `axios.get` with default config: resolves with the response only
for a 2xx status; rejects (throws) on transport error, timeout, or any
other status. -/
def axiosGet (raw : RawOutcome) : Except ℕ (ℕ × String × ℕ) :=
  match raw with
  | .response s b e => if 200 ≤ s ∧ s < 300 then .ok (s, b, e) else .error e
  | .transportErr e => .error e

/-- Result record of `pingEndpoint`. -/
structure PingResult where
  success : Bool
  responseTimeMs : ℕ
  data : Option String
deriving DecidableEq, Repr

/-- `pingEndpoint`: one GET; on a resolved response report
`status in [200,300)` and the body; on any rejection report failure
with a null body.  Both branches report the elapsed wall time. -/
def pingEndpoint (raw : RawOutcome) : PingResult :=
  match axiosGet raw with
  | .ok (s, b, e) => { success := decide (200 ≤ s ∧ s < 300), responseTimeMs := e, data := some b }
  | .error e => { success := false, responseTimeMs := e, data := none }

/-- C7: `pingEndpoint` is a total function of the transport outcome
(it never throws); `success` is true iff the HTTP response status is in
[200, 300); `responseTimeMs` is always the elapsed wall time of the
attempt; and on any transport error, timeout, or non-2xx status the
body is null. -/
theorem pingEndpoint_characterization (raw : RawOutcome) :
    (pingEndpoint raw).success = raw.is2xx ∧
    (pingEndpoint raw).responseTimeMs = raw.elapsed ∧
    (pingEndpoint raw).data =
      (match raw with
        | .response s b _ => if 200 ≤ s ∧ s < 300 then some b else none
        | .transportErr _ => none) := by
  cases raw with
  | response s b e =>
      by_cases h : 200 ≤ s ∧ s < 300 <;>
        simp [pingEndpoint, axiosGet, RawOutcome.is2xx, RawOutcome.elapsed, h]
  | transportErr e =>
      simp [pingEndpoint, axiosGet, RawOutcome.is2xx, RawOutcome.elapsed]

/-! ## Trend analytics (C5)

Embeds `getResponseTrends` (db/mongo.ts, lines 253-282) as a pure
function of the stored probe history, with JS `reduce` sums mirrored by
`foldl` and JS `slice(-3)` / `slice(0,-3)` mirrored by `drop`/`take`.
The code returns `stdDev = Math.sqrt(variance)`; since the square root
is applied uniformly as the last step, the embedding carries the
population variance (`varTime`) instead, and the claim's statement
about `stdDev` becomes the statement that `varTime` is the population
variance.  The decimal factors 0.8 and 1.2 are taken at their exact
rational values. -/

/-- One probe-history sample. -/
structure ProbeSample where
  timestamp : ℕ
  responseTimeMs : ℚ
  success : Bool
deriving DecidableEq, Repr

/-- Possible trend directions. -/
inductive Trend
  | improving
  | stable
  | degrading
deriving DecidableEq, Repr

/-- Output of the trend analyzer; `varTime` is the quantity whose
square root the code returns as `stdDev`. -/
structure Trends where
  avgTime : ℚ
  varTime : ℚ
  recentTrend : Trend
deriving DecidableEq, Repr

/-- JS `array.reduce((a, b) => a + b, 0)`. -/
def jsReduceSum (l : List ℚ) : ℚ := l.foldl (· + ·) 0

/-- `getResponseTrends`, translated line by line. -/
def getResponseTrends (history : List ProbeSample) : Trends :=
  if history.length < 3 then ⟨0, 0, .stable⟩
  else
    let times := (history.filter fun h => h.success).map fun h => h.responseTimeMs
    if times.length = 0 then ⟨0, 0, .degrading⟩
    else
      let avgTime := jsReduceSum times / times.length
      let variance := jsReduceSum (times.map fun t => (t - avgTime) ^ 2) / times.length
      let recent := times.drop (times.length - 3)
      let older := times.take (times.length - 3)
      if older.length = 0 then ⟨avgTime, variance, .stable⟩
      else
        let recentAvg := jsReduceSum recent / recent.length
        let olderAvg := jsReduceSum older / older.length
        let trend :=
          if recentAvg < olderAvg * (4 / 5 : ℚ) then Trend.improving
          else if recentAvg > olderAvg * (6 / 5 : ℚ) then Trend.degrading
          else Trend.stable
        ⟨avgTime, variance, trend⟩

/-- Mean of a list of rationals (0 on the empty list). -/
def listMean (l : List ℚ) : ℚ := l.sum / l.length

/-- Population variance of a list of rationals. -/
def popVariance (l : List ℚ) : ℚ := (l.map fun t => (t - listMean l) ^ 2).sum / l.length

/-- The last `n` elements of a list. -/
def lastN (n : ℕ) (l : List ℚ) : List ℚ := (l.reverse.take n).reverse

/-- The list without its last `n` elements. -/
def dropLastN (n : ℕ) (l : List ℚ) : List ℚ := (l.reverse.drop n).reverse

/-- Response times of the successful probes, in stored order. -/
def successTimes (history : List ProbeSample) : List ℚ :=
  (history.filter fun h => h.success).map fun h => h.responseTimeMs

/-- Modelled from the claim's words for C5: fewer than 3 history
entries gives `{0, 0, stable}`; no successful probe gives
`{0, 0, degrading}`; otherwise the mean and the population variance of
the successful response times, with the trend read off the last 3
successful samples against all earlier successful samples via the
0.8 / 1.2 thresholds. -/
def trendsSpec (history : List ProbeSample) : Trends :=
  if history.length < 3 then ⟨0, 0, .stable⟩
  else
    let times := successTimes history
    if times = [] then ⟨0, 0, .degrading⟩
    else
      let recent := lastN 3 times
      let older := dropLastN 3 times
      let trend :=
        if older = [] then Trend.stable
        else if listMean recent < (4 / 5 : ℚ) * listMean older then Trend.improving
        else if listMean recent > (6 / 5 : ℚ) * listMean older then Trend.degrading
        else Trend.stable
      ⟨listMean times, popVariance times, trend⟩

theorem jsReduceSum_eq_sum (l : List ℚ) : jsReduceSum l = l.sum :=
  (List.sum_eq_foldl (l := l)).symm

theorem lastN_eq_drop (n : ℕ) (l : List ℚ) : lastN n l = l.drop (l.length - n) := by
  rw [lastN, List.take_reverse, List.reverse_reverse]

theorem dropLastN_eq_take (n : ℕ) (l : List ℚ) : dropLastN n l = l.take (l.length - n) := by
  rw [dropLastN, List.drop_reverse, List.reverse_reverse]

/-- C5: `getResponseTrends` is a pure function of the stored probe
history and computes exactly what the claim states: the short-history
and no-success defaults, the mean and population variance of the
successful response times, and the trend classification of the last 3
successful samples against the earlier ones with the 0.8 / 1.2
thresholds. -/
theorem getResponseTrends_eq_spec (history : List ProbeSample) :
    getResponseTrends history = trendsSpec history := by
  unfold getResponseTrends trendsSpec
  by_cases h1 : history.length < 3
  · simp [h1]
  · simp only [if_neg h1]
    rw [show ((history.filter fun h => h.success).map fun h => h.responseTimeMs) =
        successTimes history from rfl]
    set times := successTimes history with htimes
    by_cases h2 : times = []
    · simp [h2]
    · have h2' : ¬ times.length = 0 := by simpa [List.length_eq_zero] using h2
      simp only [if_neg h2, if_neg h2']
      rw [lastN_eq_drop, dropLastN_eq_take]
      have h3iff : (times.take (times.length - 3)).length = 0 ↔
          times.take (times.length - 3) = [] := List.length_eq_zero
      by_cases h3 : times.take (times.length - 3) = []
      · simp [h3, h3iff, jsReduceSum_eq_sum, listMean, popVariance]
      · have h3' : ¬ (times.take (times.length - 3)).length = 0 := fun hh =>
          h3 (List.length_eq_zero.mp hh)
        simp only [if_neg h3, if_neg h3']
        rw [jsReduceSum_eq_sum, jsReduceSum_eq_sum, jsReduceSum_eq_sum, jsReduceSum_eq_sum]
        simp [listMean, popVariance, mul_comm]

/-! ## LLM diagnostic layer (C6, C9)

Embeds `makeHealthDecision` and `callGroqStructured`
(llm/decisions.ts) together with the Mongo-backed TTL cache
(`getCachedAgent` / `setCachedAgent`, db/mongo.ts lines 212-229).
Time is milliseconds since epoch.  The remote model is an oracle
mapping the full dynamic input and the attempt number to either a
parsed structured result or `none` (transport or parse failure); the
prompt string built from the inputs is absorbed into the oracle's
dependence on the inputs. -/

/-- The `failureType` enum of a health decision. -/
inductive FailureType
  | noneF
  | timeout
  | error
  | spoofed
  | degraded
  | unknown
deriving DecidableEq, Repr

/-- Parsed output of `validateResponseContent`. -/
structure ResponseValidation where
  isValid : Bool
  schemaCompliant : Bool
  isSpoofed : Bool
  issues : List String
  confidence : ℚ
deriving DecidableEq, Repr

/-- The slice of an agent card the decision functions read. -/
structure AgentCard where
  name : Option String
  description : Option String
deriving DecidableEq, Repr

/-- Parsed output of `makeHealthDecision`; optional fields are `none`
when absent or null. -/
structure HealthDecision where
  decision : Verdict
  reason : String
  slashPercent : Option ℚ := none
  failureType : Option FailureType := none
  anomalyDetected : Option Bool := none
  anomalyDetails : Option String := none
deriving DecidableEq, Repr

/-- One row of the `AgentCache` collection. -/
structure CacheDoc (α : Type) where
  key : String
  data : α
  createdAt : ℕ
  expiresAt : ℕ
deriving DecidableEq, Repr

/-- `Agent_CACHE_TTL_SECONDS = 5 * 60`, in milliseconds. -/
def cacheTTLms : ℕ := 5 * 60 * 1000

/-- `getCachedAgent`: find the row with this key and return its data
only when its expiry deadline is still in the future. -/
def getCachedAgent {α : Type} (key : String) (cache : List (CacheDoc α))
    (now : ℕ) : Option α :=
  match cache.find? fun d => d.key == key with
  | some doc => if now < doc.expiresAt then some doc.data else none
  | none => none

/-- `setCachedAgent`: upsert on the unique key, stamping
`expiresAt = now + TTL`. -/
def setCachedAgent {α : Type} (key : String) (data : α) (now : ℕ) :
    List (CacheDoc α) → List (CacheDoc α)
  | [] => [⟨key, data, now, now + cacheTTLms⟩]
  | d :: rest =>
      if d.key == key then ⟨key, data, now, now + cacheTTLms⟩ :: rest
      else d :: setCachedAgent key data now rest

/-- The inputs of `makeHealthDecision`. -/
structure HealthInputs where
  agentId : String
  endpoint : String
  pingResult : PingResult
  healthData : HealthData
  trends : Trends
  validationResult : Option ResponseValidation
  agentCard : Option AgentCard
deriving DecidableEq, Repr

/-- The fingerprint `health:<agentId>:<success>:<responseTimeMs>`. -/
def healthCacheKey (agentId : String) (success : Bool) (responseTimeMs : ℕ) : String :=
  "health:" ++ agentId ++ ":" ++ (if success then "true" else "false") ++ ":" ++
    toString responseTimeMs

/-- `callGroqStructured`: up to `maxRetries` attempts; the first
attempt that yields a parsed structured result wins; if every attempt
fails (transport or parse), the call throws, modelled as `none`. -/
def callGroqStructured {α : Type} (attempts : ℕ → Option α) (maxRetries : ℕ) : Option α :=
  (List.range maxRetries).findSome? fun i => attempts (i + 1)

/-- The deterministic safe default of `makeHealthDecision`'s catch
branch. -/
def safeDefaultHealthDecision (ping : PingResult) : HealthDecision :=
  { decision := if ping.success then Verdict.healthy else Verdict.suspicious,
    reason := if ping.success then "Endpoint responded successfully"
              else "Endpoint failed to respond",
    slashPercent := none,
    failureType := some (if ping.success then FailureType.noneF else FailureType.error),
    anomalyDetected := some false,
    anomalyDetails := none }

/-- `makeHealthDecision`: cache lookup on the health fingerprint; on a
hit return the cached decision; on a miss call the model (3 attempts);
cache and return a successful result; on exhaustion return the safe
default without writing the cache.  Returns the decision and the
resulting cache state. -/
def makeHealthDecision (inp : HealthInputs)
    (llm : HealthInputs → ℕ → Option HealthDecision)
    (cache : List (CacheDoc HealthDecision)) (now : ℕ) :
    HealthDecision × List (CacheDoc HealthDecision) :=
  let cacheKey := healthCacheKey inp.agentId inp.pingResult.success inp.pingResult.responseTimeMs
  match getCachedAgent cacheKey cache now with
  | some cached => (cached, cache)
  | none =>
      match callGroqStructured (llm inp) 3 with
      | some result => (result, setCachedAgent cacheKey result now cache)
      | none => (safeDefaultHealthDecision inp.pingResult, cache)

/-- C6: on a cache miss, when all 3 LLM attempts fail (transport or
parse), `makeHealthDecision` returns the deterministic safe default —
healthy/probe-success-reason/failureType none if the probe succeeded,
else suspicious/failure-reason/failureType error, with
anomalyDetected false and null anomalyDetails — and the cache is left
unchanged (the safe default is not written to it). -/
theorem makeHealthDecision_exhaustion_safe_default
    (inp : HealthInputs) (llm : HealthInputs → ℕ → Option HealthDecision)
    (cache : List (CacheDoc HealthDecision)) (now : ℕ)
    (hmiss : getCachedAgent
      (healthCacheKey inp.agentId inp.pingResult.success inp.pingResult.responseTimeMs)
      cache now = none)
    (hfail : ∀ i, 1 ≤ i → i ≤ 3 → llm inp i = none) :
    makeHealthDecision inp llm cache now =
      ({ decision := if inp.pingResult.success then Verdict.healthy else Verdict.suspicious,
         reason := if inp.pingResult.success then "Endpoint responded successfully"
                   else "Endpoint failed to respond",
         slashPercent := none,
         failureType := some (if inp.pingResult.success then FailureType.noneF
                              else FailureType.error),
         anomalyDetected := some false,
         anomalyDetails := none }, cache) := by
  have e1 : llm inp 1 = none := hfail 1 (by norm_num) (by norm_num)
  have e2 : llm inp 2 = none := hfail 2 (by norm_num) (by norm_num)
  have e3 : llm inp 3 = none := hfail 3 (by norm_num) (by norm_num)
  have hgroq : callGroqStructured (llm inp) 3 = none := by
    have hr : List.range 3 = [0, 1, 2] := rfl
    simp [callGroqStructured, hr, e1, e2, e3]
  unfold makeHealthDecision
  dsimp only
  rw [hmiss, hgroq]
  rfl

/-- Witness input: a successful 40 ms probe of agent 1. -/
def inpW : HealthInputs :=
  { agentId := "1", endpoint := "e",
    pingResult := ⟨true, 40, some "ok"⟩,
    healthData := ⟨100, 0, 0, 0, 0, 0, 0, true, 0, "e"⟩,
    trends := ⟨0, 0, .stable⟩,
    validationResult := none, agentCard := none }

/-- Witness for the C6 theorem: with an empty cache and an LLM that
fails every attempt, the successful probe yields the healthy safe
default and the cache stays empty. -/
theorem makeHealthDecision_exhaustion_witness :
    makeHealthDecision inpW (fun _ _ => none) [] 0 =
      ({ decision := Verdict.healthy, reason := "Endpoint responded successfully",
         slashPercent := none, failureType := some FailureType.noneF,
         anomalyDetected := some false, anomalyDetails := none }, []) := by
  have h := makeHealthDecision_exhaustion_safe_default inpW (fun _ _ => none) [] 0
    rfl (fun i h1 h2 => rfl)
  simpa using h

/-- C9: if the cache holds an unexpired entry for the fingerprint
`health:<agentId>:<success>:<responseTimeMs>`, `makeHealthDecision`
returns that cached decision without consulting the model, so its
result is independent of every other input: two calls agreeing on
agent id, probe success flag and response time — but with arbitrarily
different response bodies, health data, trends, validation results,
agent cards and even different model oracles — return the same cached
decision and leave the cache unchanged. -/
theorem makeHealthDecision_cache_hit_independent
    (inp1 inp2 : HealthInputs)
    (llm1 llm2 : HealthInputs → ℕ → Option HealthDecision)
    (cache : List (CacheDoc HealthDecision)) (now : ℕ) (d : HealthDecision)
    (hid : inp2.agentId = inp1.agentId)
    (hsucc : inp2.pingResult.success = inp1.pingResult.success)
    (hms : inp2.pingResult.responseTimeMs = inp1.pingResult.responseTimeMs)
    (hhit : getCachedAgent
      (healthCacheKey inp1.agentId inp1.pingResult.success inp1.pingResult.responseTimeMs)
      cache now = some d) :
    makeHealthDecision inp1 llm1 cache now = (d, cache) ∧
    makeHealthDecision inp2 llm2 cache now = (d, cache) := by
  constructor
  · unfold makeHealthDecision
    dsimp only
    rw [hhit]
  · unfold makeHealthDecision
    dsimp only
    rw [hid, hsucc, hms, hhit]

/-- A live cache entry for agent 1's successful 40 ms fingerprint. -/
def cachedDecisionW : HealthDecision :=
  { decision := Verdict.healthy, reason := "cached", slashPercent := none,
    failureType := some FailureType.noneF, anomalyDetected := some false,
    anomalyDetails := none }

/-- Cache holding only that entry, expiring at t = 300000. -/
def cacheW : List (CacheDoc HealthDecision) :=
  [⟨healthCacheKey "1" true 40, cachedDecisionW, 0, cacheTTLms⟩]

/-- A second input with the same fingerprint fields but a different
body, endpoint, health data, trends, validation and card. -/
def inpW2 : HealthInputs :=
  { agentId := "1", endpoint := "other",
    pingResult := ⟨true, 40, some "different-body"⟩,
    healthData := ⟨3, 9, 8, 7, 1, 6, 5, false, 4, "other"⟩,
    trends := ⟨50, 25, .degrading⟩,
    validationResult := some ⟨false, false, true, ["spoof"], 99⟩,
    agentCard := some ⟨some "x", some "y"⟩ }

/-- Witness for the C9 theorem: at time 10 the entry is live; both
calls — with different inputs away from the fingerprint and different
model oracles — return the cached decision and leave the cache
unchanged. -/
theorem makeHealthDecision_cache_hit_witness :
    makeHealthDecision inpW (fun _ _ => none) cacheW 10 = (cachedDecisionW, cacheW) ∧
    makeHealthDecision inpW2
      (fun _ _ => some (safeDefaultHealthDecision ⟨false, 0, none⟩)) cacheW 10 =
      (cachedDecisionW, cacheW) :=
  makeHealthDecision_cache_hit_independent inpW inpW2 (fun _ _ => none)
    (fun _ _ => some (safeDefaultHealthDecision ⟨false, 0, none⟩)) cacheW 10
    cachedDecisionW rfl rfl rfl (by decide)

/-! ## Faucet one-shot claims (C10)

Embeds `hasFaucetClaim` / `recordFaucetClaim` (db/mongo.ts lines
321-335) over the `faucet_claims` collection.  JS
`String.toLowerCase` is modelled character-wise. -/

/-- JS `String.prototype.toLowerCase`, character-wise. -/
def jsToLowerCase (s : String) : String := String.mk (s.data.map Char.toLower)

/-- One row of the `faucet_claims` collection. -/
structure FaucetClaimDoc where
  address : String
  amount : ℚ
  txHash : String
  claimedAt : ℕ
deriving DecidableEq, Repr

/-- `recordFaucetClaim`: insert a row keyed by the lowercased
recipient address. -/
def recordFaucetClaim (address : String) (amount : ℚ) (txHash : String)
    (now : ℕ) (col : List FaucetClaimDoc) : List FaucetClaimDoc :=
  col ++ [⟨jsToLowerCase address, amount, txHash, now⟩]

/-- `hasFaucetClaim`: a row keyed by the lowercased address exists. -/
def hasFaucetClaim (address : String) (col : List FaucetClaimDoc) : Bool :=
  col.any fun d => d.address == jsToLowerCase address

/-- `A` is a case variant of `a`: same characters up to letter case. -/
def CaseVariant (a b : String) : Prop :=
  List.Forall₂ (fun c c2 => c.toLower = c2.toLower) a.data b.data

theorem map_toLower_eq_of_forall₂ {l1 l2 : List Char}
    (h : List.Forall₂ (fun c c2 => c.toLower = c2.toLower) l1 l2) :
    l1.map Char.toLower = l2.map Char.toLower := by
  induction h with
  | nil => rfl
  | cons hc _ ih => simp [hc, ih]

theorem jsToLowerCase_eq_of_caseVariant {a b : String} (h : CaseVariant a b) :
    jsToLowerCase a = jsToLowerCase b :=
  congrArg String.mk (map_toLower_eq_of_forall₂ h)

/-- C10: faucet one-shot detection is case-insensitive in the
recipient address — for every address `a` and every case variant `A`
of `a`, after `recordFaucetClaim a` completes, `hasFaucetClaim A`
returns true, because both operations lowercase the address. -/
theorem faucet_claim_case_insensitive (A a : String) (amount : ℚ)
    (txHash : String) (now : ℕ) (col : List FaucetClaimDoc)
    (hvar : CaseVariant A a) :
    hasFaucetClaim A (recordFaucetClaim a amount txHash now col) = true := by
  have hl : jsToLowerCase A = jsToLowerCase a := jsToLowerCase_eq_of_caseVariant hvar
  simp [hasFaucetClaim, recordFaucetClaim, hl]

/-- Witness for the C10 theorem: recording a claim for "0xaB" makes
the claim visible under the case variant "0xAb". -/
theorem faucet_claim_case_insensitive_witness :
    hasFaucetClaim "0xAb" (recordFaucetClaim "0xaB" 1 "t" 0 []) = true :=
  faucet_claim_case_insensitive "0xAb" "0xaB" 1 "t" 0 [] (by repeat constructor)

/-! ## Cascade delete (C4)

Embeds `deleteAgentData` (db/mongo.ts lines 153-178): `deleteOne` on
the agent row and the suspicious-counter row (unique agent-id keys),
`deleteMany` on the health events, and `deleteMany` with the Mongo
`$regex` filter `(^|_)<agentId>($|_)` on the `AgentCache` keys.  The
regex is given its standard unanchored-search semantics. -/

/-- One agent row, restricted to the field the delete filters on. -/
structure AgentRow where
  agentId : String
deriving DecidableEq, Repr

/-- One health-event row, restricted to the fields of interest. -/
structure HealthEventRow where
  agentId : String
  decision : String
deriving DecidableEq, Repr

/-- One suspicious-counter row. -/
structure SuspiciousCountRow where
  agentId : String
  consecutiveSuspicious : ℕ
deriving DecidableEq, Repr

/-- The four collections touched by `deleteAgentData`; cache payloads
are opaque decoded JSON, kept as strings. -/
structure OracleStore where
  agents : List AgentRow
  healthEvents : List HealthEventRow
  agentCache : List (CacheDoc String)
  suspiciousCounts : List SuspiciousCountRow
deriving DecidableEq, Repr

/-- Mongo `deleteOne`: remove the first row satisfying the filter. -/
def deleteOneBy {α : Type} (p : α → Bool) : List α → List α
  | [] => []
  | x :: rest => if p x then rest else x :: deleteOneBy p rest

/-- Whether `idc` occurs in `s` at position `i` bounded on the left by
the start of the string or an underscore and on the right by the end
of the string or an underscore. -/
def matchesBoundedAt (idc s : List Char) (i : ℕ) : Bool :=
  decide ((s.drop i).take idc.length = idc) &&
  (decide (i = 0) || decide (s.getD (i - 1) ' ' = '_')) &&
  (decide (i + idc.length = s.length) || decide (s.getD (i + idc.length) ' ' = '_'))

/-- Unanchored-search semantics of the regular expression
`(^|_)id($|_)`: some position of `s` carries a bounded occurrence. -/
def regexDelimMatch (id s : String) : Bool :=
  (List.range (s.length + 1)).any fun i => matchesBoundedAt id.data s.data i

/-- `deleteAgentData`: remove the agent row, all its health events,
every cache row whose key matches `(^|_)<agentId>($|_)`, and its
suspicious-counter row.  (The list of collection names the original
returns is dropped.) -/
def deleteAgentData (agentId : String) (st : OracleStore) : OracleStore :=
  { agents := deleteOneBy (fun a => a.agentId == agentId) st.agents,
    healthEvents := st.healthEvents.filter fun e => !(e.agentId == agentId),
    agentCache := st.agentCache.filter fun c => !regexDelimMatch agentId c.key,
    suspiciousCounts := deleteOneBy (fun c => c.agentId == agentId) st.suspiciousCounts }

/-- A store for agent "7" holding the two LLM cache rows written by
`makeHealthDecision` (`health:7:true:40`) and `generateTrustNarrative`
(`narrative:7`), plus its agent, event and counter rows. -/
def storeAgent7 : OracleStore :=
  { agents := [⟨"7"⟩],
    healthEvents := [⟨"7", "healthy"⟩],
    agentCache := [⟨"health:7:true:40", "cached-decision", 0, 300000⟩,
                   ⟨"narrative:7", "cached-narrative", 0, 300000⟩],
    suspiciousCounts := [⟨"7", 0⟩] }

/-- C4 (code bug, evaluated at the failing input): the delete regex
`(^|_)7($|_)` matches underscore-bounded keys but matches neither
`health:7:true:40` nor `narrative:7`, whose separators are colons; so
`deleteAgentData "7"` removes the agent, event and counter rows but
leaves both LLM cache rows in place, contradicting the claim (and the
function's own "fully remove all data" documentation). -/
theorem deleteAgentData_misses_llm_cache :
    regexDelimMatch "7" "trends_7" = true ∧
    regexDelimMatch "7" "7_meta" = true ∧
    regexDelimMatch "7" "health:7:true:40" = false ∧
    regexDelimMatch "7" "narrative:7" = false ∧
    (deleteAgentData "7" storeAgent7).agentCache = storeAgent7.agentCache ∧
    (deleteAgentData "7" storeAgent7).agents = [] ∧
    (deleteAgentData "7" storeAgent7).healthEvents = [] ∧
    (deleteAgentData "7" storeAgent7).suspiciousCounts = [] := by
  decide

end AgentOracle
